import Mathlib

/-
Verification of the hiring-dashboard aggregation engine.

The definitions below are a shallow embedding of the analytics code:

  - Candidate, calculateScoreDiscrepancy, calculateWeeklyTrends
    follow src/lib/notion.ts.  JavaScript numbers are modelled as
    rationals, JavaScript Date values as integer milliseconds since
    the epoch in a fixed-offset timezone (no DST), and the fallible
    date field as an explicit three-way datatype.
  - roleKey, roleKeysOf, roleGroup, rolePerfStep, roleQualityStep
    follow the role-breakdown reducers in
    src/components/RolePerformanceTab.tsx and
    src/components/CandidateQualityTab.tsx; the JavaScript
    reduce-into-object is modelled as grouping by key followed by a
    left fold of the same step function over each group.

Candidate fields that none of the verified computations read
(name, location, resume, interview metadata, and so on) are omitted.
-/

/-- Date field of a candidate record: the empty string (missing), a
non-empty string that does not parse as a date, or a parsed timestamp
in milliseconds. -/
inductive DateField where
  | missing : DateField
  | unparseable : DateField
  | parsed : Int → DateField
deriving DecidableEq

/-- Candidate record, restricted to the fields the aggregation engine
reads.  Scores are rationals; 0 is the sentinel for "not yet scored". -/
structure Candidate where
  id : String
  dateAdded : DateField
  aiScore : ℚ
  humanScore : ℚ
  jobRole : String
  role : String
  source : String
  status : String
  passedAiFilter : Bool
  passedHumanFilter : Bool
deriving DecidableEq

/-- Candidate with the given scores and all other fields empty. -/
def mkCandidate (ai human : ℚ) : Candidate :=
  { id := "", dateAdded := DateField.missing, aiScore := ai,
    humanScore := human, jobRole := "", role := "", source := "",
    status := "", passedAiFilter := false, passedHumanFilter := false }

/-- Result object of calculateScoreDiscrepancy.  The early-return
branch of the source omits the discrepancies field, so it is an
Option here: none models the absent field. -/
structure ScoreSummary where
  averageDiscrepancy : ℚ
  maxDiscrepancy : ℚ
  minDiscrepancy : ℚ
  totalCandidates : Nat
  aiHigherCount : Nat
  humanHigherCount : Nat
  equalScoresCount : Nat
  discrepancies : Option (List ℚ)
deriving DecidableEq

/-- Math.max over a spread of a non-empty list (the source only
applies it to non-empty lists; the value on the empty list is
irrelevant). -/
def listMax : List ℚ → ℚ
  | [] => 0
  | h :: t => t.foldl max h

/-- Math.min over a spread of a non-empty list. -/
def listMin : List ℚ → ℚ
  | [] => 0
  | h :: t => t.foldl min h

/-- Filter predicate of the source: both scores strictly positive. -/
def scoredB (c : Candidate) : Bool := 0 < c.aiScore && 0 < c.humanScore

/-- Embedding of calculateScoreDiscrepancy from src/lib/notion.ts. -/
def calculateScoreDiscrepancy (candidates : List Candidate) : ScoreSummary :=
  let validCandidates := candidates.filter scoredB
  if validCandidates.isEmpty then
    { averageDiscrepancy := 0, maxDiscrepancy := 0, minDiscrepancy := 0,
      totalCandidates := 0, aiHigherCount := 0, humanHigherCount := 0,
      equalScoresCount := 0, discrepancies := none }
  else
    let discrepancies := validCandidates.map fun c => c.aiScore - c.humanScore
    { averageDiscrepancy := discrepancies.sum / (discrepancies.length : ℚ),
      maxDiscrepancy := listMax discrepancies,
      minDiscrepancy := listMin discrepancies,
      totalCandidates := validCandidates.length,
      aiHigherCount := (discrepancies.filter fun d => 0 < d).length,
      humanHigherCount := (discrepancies.filter fun d => d < 0).length,
      equalScoresCount := (discrepancies.filter fun d => d = 0).length,
      discrepancies := some (discrepancies.map fun d => |d|) }

/-- Milliseconds per day. -/
def msPerDay : Int := 86400000

/-- Day number of a timestamp: floor of t over msPerDay.  Integer
division in Lean rounds toward negative infinity for a positive
divisor, matching calendar days for timestamps before the epoch. -/
def dayIndex (t : Int) : Int := t / msPerDay

/-- Timestamp of local midnight of the day containing t; models
setHours(0, 0, 0, 0). -/
def startOfDay (t : Int) : Int := dayIndex t * msPerDay

/-- Day of the week of a timestamp, 0 = Sunday through 6 = Saturday;
models Date.getDay.  The epoch day is a Thursday, hence the offset 4. -/
def jsGetDay (t : Int) : Int := (dayIndex t + 4) % 7

/-- Number of days subtracted to roll a date back to the Monday of
its week: getDate - dayOfWeek + (dayOfWeek equal to 0 ? -6 : 1) in
the source shifts the date by minus this amount. -/
def mondayShift (d : Int) : Int := if d = 0 then 6 else d - 1

/-- Monday midnight of the week containing t: the weekStart value
that mkWeekBucket computes from t. -/
def weekStartOf (t : Int) : Int :=
  startOfDay (t - mondayShift (jsGetDay t) * msPerDay)

/-- One week window of the trend view. -/
structure WeekBucket where
  weekStart : Int
  weekEnd : Int
deriving DecidableEq, Inhabited

/-- Week window built from a timestamp t: roll back to the Monday of
the week of t, zero the time of day, and end 6 days later at
23:59:59.999. -/
def mkWeekBucket (t : Int) : WeekBucket :=
  let weekStart := startOfDay (t - mondayShift (jsGetDay t) * msPerDay)
  { weekStart := weekStart,
    weekEnd := startOfDay (weekStart + 6 * msPerDay) + (msPerDay - 1) }

/-- The four week windows generated by calculateWeeklyTrends for the
reference time now, oldest first (loop i = 3 down to 0). -/
def weekBuckets (now : Int) : List WeekBucket :=
  [3, 2, 1, 0].map fun i => mkWeekBucket (now - i * 7 * msPerDay)

/-- Inclusive-range membership test used when assigning a candidate
date to a bucket. -/
def inBucket (b : WeekBucket) (t : Int) : Bool :=
  b.weekStart ≤ t && t ≤ b.weekEnd

/-- Index of the first bucket whose window contains t; models the
Array.prototype.find call over the bucket list. -/
def findBucketIdx : List WeekBucket → Int → Option Nat
  | [], _ => none
  | b :: rest, t =>
    if inBucket b t then some 0 else (findBucketIdx rest t).map (· + 1)

/-- True when dateAdded is a non-empty string; models the truthiness
filter on candidate.dateAdded. -/
def hasDate (c : Candidate) : Bool :=
  match c.dateAdded with
  | DateField.missing => false
  | _ => true

/-- Parsed timestamp of dateAdded, none when the string is missing or
does not parse (the isNaN check of the source). -/
def parsedDate (c : Candidate) : Option Int :=
  match c.dateAdded with
  | DateField.parsed t => some t
  | _ => none

/-- True when the candidate has a parseable date that the find call
assigns to bucket number j. -/
def assignedTo (buckets : List WeekBucket) (j : Nat) (c : Candidate) : Bool :=
  match parsedDate c with
  | some t => findBucketIdx buckets t == some j
  | none => false

/-- All candidates placed into bucket number j. -/
def bucketAll (buckets : List WeekBucket) (cands : List Candidate)
    (j : Nat) : List Candidate :=
  (cands.filter hasDate).filter (assignedTo buckets j)

/-- Per-week metrics record returned by calculateWeeklyTrends. -/
structure WeekMetrics where
  date : Int
  totalCandidates : Nat
  scoredCandidates : Nat
  averageDiscrepancy : ℚ
  averageAbsoluteDiscrepancy : ℚ
  aiHigherCount : Nat
  humanHigherCount : Nat
  equalCount : Nat
  maxDiscrepancy : ℚ
  minDiscrepancy : ℚ
  aiAccuracy : ℚ
deriving DecidableEq, Inhabited

/-- Metrics of one bucket, computed from its volume list and its
scored sub-list. -/
def weekMetricsOf (b : WeekBucket) (allC scored : List Candidate) :
    WeekMetrics :=
  let discrepancies := scored.map fun c => c.aiScore - c.humanScore
  let absDiscrepancies := discrepancies.map fun d => |d|
  { date := b.weekStart,
    totalCandidates := allC.length,
    scoredCandidates := scored.length,
    averageDiscrepancy :=
      if 0 < discrepancies.length then
        discrepancies.sum / (discrepancies.length : ℚ) else 0,
    averageAbsoluteDiscrepancy :=
      if 0 < absDiscrepancies.length then
        absDiscrepancies.sum / (absDiscrepancies.length : ℚ) else 0,
    aiHigherCount := (discrepancies.filter fun d => 0 < d).length,
    humanHigherCount := (discrepancies.filter fun d => d < 0).length,
    equalCount := (discrepancies.filter fun d => d = 0).length,
    maxDiscrepancy :=
      if 0 < discrepancies.length then listMax discrepancies else 0,
    minDiscrepancy :=
      if 0 < discrepancies.length then listMin discrepancies else 0,
    aiAccuracy :=
      if 0 < discrepancies.length then
        ((discrepancies.filter fun d => |d| ≤ 1).length : ℚ)
          / (discrepancies.length : ℚ) * 100 else 0 }

/-- Embedding of calculateWeeklyTrends from src/lib/notion.ts, with
the reference time (new Date() in the source) passed explicitly. -/
def calculateWeeklyTrends (now : Int) (candidates : List Candidate) :
    List WeekMetrics :=
  let buckets := weekBuckets now
  (List.range buckets.length).map fun j =>
    let allC := bucketAll buckets candidates j
    weekMetricsOf (buckets.getD j default) allC (allC.filter scoredB)

/-- Role key of the role-breakdown reducers: jobRole, falling back to
role, falling back to the literal "No Role"; models the JavaScript
truthiness fallback chain on strings. -/
def roleKey (c : Candidate) : String :=
  if c.jobRole ≠ "" then c.jobRole
  else if c.role ≠ "" then c.role
  else "No Role"

/-- Key insertion of the reduce-into-object accumulator: a key is
appended on first sight, later records reuse the existing entry. -/
def insertKey (ks : List String) (k : String) : List String :=
  if k ∈ ks then ks else ks ++ [k]

/-- Keys of the accumulator object after the reduce, in first
insertion order. -/
def roleKeysOf (cands : List Candidate) : List String :=
  cands.foldl (fun ks c => insertKey ks (roleKey c)) []

/-- Records accumulated under key k.  Each record of the reduce
updates exactly the entry of its own key, so the per-key accumulator
is the fold of the step function over this sub-list. -/
def roleGroup (cands : List Candidate) (k : String) : List Candidate :=
  cands.filter fun c => roleKey c = k

/-- Accumulator entry of the role reducer in RolePerformanceTab
(fields that feed no verified output, such as the sources and
statuses maps, are omitted). -/
structure RoleAcc where
  totalCandidates : Nat
  aiScoreSum : ℚ
  humanScoreSum : ℚ
  discrepancySum : ℚ
  aiProcessedCount : Nat
  humanProcessedCount : Nat
  withBothScores : Nat
deriving DecidableEq

/-- Fresh accumulator entry, all zero. -/
def rolePerfInit : RoleAcc :=
  { totalCandidates := 0, aiScoreSum := 0, humanScoreSum := 0,
    discrepancySum := 0, aiProcessedCount := 0, humanProcessedCount := 0,
    withBothScores := 0 }

/-- One step of the RolePerformanceTab reducer: totalCandidates is
incremented first; a record with empty source, or empty status, then
returns early and skips all score accumulation. -/
def rolePerfStep (acc : RoleAcc) (c : Candidate) : RoleAcc :=
  let acc1 := { acc with totalCandidates := acc.totalCandidates + 1 }
  if c.source = "" then acc1
  else if c.status = "" then acc1
  else
    let acc2 := if 0 < c.aiScore then
        { acc1 with aiScoreSum := acc1.aiScoreSum + c.aiScore,
                    aiProcessedCount := acc1.aiProcessedCount + 1 }
      else acc1
    let acc3 := if 0 < c.humanScore then
        { acc2 with humanScoreSum := acc2.humanScoreSum + c.humanScore,
                    humanProcessedCount := acc2.humanProcessedCount + 1 }
      else acc2
    if 0 < c.aiScore ∧ 0 < c.humanScore then
        { acc3 with withBothScores := acc3.withBothScores + 1,
                    discrepancySum :=
                      acc3.discrepancySum + (c.aiScore - c.humanScore) }
    else acc3

/-- Accumulator entry for a group of records in RolePerformanceTab. -/
def rolePerfAcc (g : List Candidate) : RoleAcc :=
  g.foldl rolePerfStep rolePerfInit

/-- avgAiScore of roleData in RolePerformanceTab: aiScoreSum over
aiProcessedCount when positive, else 0. -/
def rolePerfAvgAiScore (g : List Candidate) : ℚ :=
  if 0 < (rolePerfAcc g).aiProcessedCount then
    (rolePerfAcc g).aiScoreSum / ((rolePerfAcc g).aiProcessedCount : ℚ)
  else 0

/-- avgHumanScore of roleData in RolePerformanceTab. -/
def rolePerfAvgHumanScore (g : List Candidate) : ℚ :=
  if 0 < (rolePerfAcc g).humanProcessedCount then
    (rolePerfAcc g).humanScoreSum / ((rolePerfAcc g).humanProcessedCount : ℚ)
  else 0

/-- Accumulator entry of the role reducer in CandidateQualityTab. -/
structure QualityAcc where
  totalCandidates : Nat
  aiScoreSum : ℚ
  humanScoreSum : ℚ
  aiScoreCount : Nat
  humanScoreCount : Nat
  highQuality : Nat
  passedAi : Nat
  passedHuman : Nat
  passedBoth : Nat
deriving DecidableEq

/-- Fresh accumulator entry, all zero. -/
def roleQualityInit : QualityAcc :=
  { totalCandidates := 0, aiScoreSum := 0, humanScoreSum := 0,
    aiScoreCount := 0, humanScoreCount := 0, highQuality := 0,
    passedAi := 0, passedHuman := 0, passedBoth := 0 }

/-- One step of the CandidateQualityTab reducer; this reducer has no
early returns. -/
def roleQualityStep (acc : QualityAcc) (c : Candidate) : QualityAcc :=
  let acc1 := { acc with totalCandidates := acc.totalCandidates + 1 }
  let acc2 := if 0 < c.aiScore then
      { acc1 with aiScoreSum := acc1.aiScoreSum + c.aiScore,
                  aiScoreCount := acc1.aiScoreCount + 1 }
    else acc1
  let acc3 := if 0 < c.humanScore then
      { acc2 with humanScoreSum := acc2.humanScoreSum + c.humanScore,
                  humanScoreCount := acc2.humanScoreCount + 1 }
    else acc2
  let acc4 := if 7 ≤ c.aiScore then
      { acc3 with highQuality := acc3.highQuality + 1 } else acc3
  let acc5 := if c.passedAiFilter then
      { acc4 with passedAi := acc4.passedAi + 1 } else acc4
  let acc6 := if c.passedHumanFilter then
      { acc5 with passedHuman := acc5.passedHuman + 1 } else acc5
  if c.passedAiFilter && c.passedHumanFilter then
      { acc6 with passedBoth := acc6.passedBoth + 1 } else acc6

/-- Accumulator entry for a group of records in CandidateQualityTab. -/
def roleQualityAcc (g : List Candidate) : QualityAcc :=
  g.foldl roleQualityStep roleQualityInit

/-- avgAiScore of roleQualityData in CandidateQualityTab. -/
def roleQualityAvgAiScore (g : List Candidate) : ℚ :=
  if 0 < (roleQualityAcc g).aiScoreCount then
    (roleQualityAcc g).aiScoreSum / ((roleQualityAcc g).aiScoreCount : ℚ)
  else 0

/-- avgHumanScore of roleQualityData in CandidateQualityTab. -/
def roleQualityAvgHumanScore (g : List Candidate) : ℚ :=
  if 0 < (roleQualityAcc g).humanScoreCount then
    (roleQualityAcc g).humanScoreSum / ((roleQualityAcc g).humanScoreCount : ℚ)
  else 0

/-- Average that the specification describes for a group: mean of
aiScore over the records of the group with aiScore > 0, and 0 when
there are none.  Stated from the words of the spec, to be compared
with the reducer-based definitions above. -/
def specAvgAiScore (g : List Candidate) : ℚ :=
  let scored := g.filter fun c => 0 < c.aiScore
  if 0 < scored.length then
    (scored.map fun c => c.aiScore).sum / (scored.length : ℚ)
  else 0

/-- Specification-side mean of humanScore over records with
humanScore > 0. -/
def specAvgHumanScore (g : List Candidate) : ℚ :=
  let scored := g.filter fun c => 0 < c.humanScore
  if 0 < scored.length then
    (scored.map fun c => c.humanScore).sum / (scored.length : ℚ)
  else 0

/-- Candidate passing both early returns of the RolePerformanceTab
reducer: non-empty source and non-empty status. -/
def perfContributes (c : Candidate) : Bool :=
  c.source ≠ "" && c.status ≠ ""

/-- Scored group member with a source and a status, used in the
RolePerformanceTab counterexample. -/
def perfCexScored : Candidate :=
  { mkCandidate 8 0 with jobRole := "R", source := "X", status := "S" }

/-- Scored group member without a source, used in the
RolePerformanceTab counterexample. -/
def perfCexSourceless : Candidate :=
  { mkCandidate 4 0 with jobRole := "R" }

/-- A list of signed values is partitioned exactly by positive,
negative and zero. -/
theorem sign_partition (l : List ℚ) :
    (l.filter fun d => 0 < d).length + (l.filter fun d => d < 0).length
      + (l.filter fun d => d = 0).length = l.length := by
  induction l with
  | nil => simp
  | cons h t ih =>
    rcases lt_trichotomy 0 h with h1 | h1 | h1
    · simp only [List.filter_cons, h1, h1.asymm, h1.ne', decide_True,
        decide_False, if_true, if_false, decide_eq_true_eq, if_pos, List.length_cons]
      simp [h1, h1.asymm, h1.ne']
      omega
    · subst h1
      simp only [List.filter_cons]
      norm_num
      omega
    · simp [List.filter_cons, h1, h1.asymm, h1.ne]
      omega

/-- C2: on the list with scores (8,6), (4,7), (9,9), (3,0) the
summary restricts to the first three records and reports
averageDiscrepancy -1/3, maxDiscrepancy 2, minDiscrepancy -3, one
record in each sign bucket, and totalCandidates 3. -/
theorem scoreDiscrepancy_example :
    (calculateScoreDiscrepancy
        [mkCandidate 8 6, mkCandidate 4 7, mkCandidate 9 9, mkCandidate 3 0]) =
      { averageDiscrepancy := -(1 / 3), maxDiscrepancy := 2,
        minDiscrepancy := -3, totalCandidates := 3, aiHigherCount := 1,
        humanHigherCount := 1, equalScoresCount := 1,
        discrepancies := some [2, 3, 0] } := by
  have hf : ([mkCandidate 8 6, mkCandidate 4 7, mkCandidate 9 9,
      mkCandidate 3 0].filter scoredB) =
      [mkCandidate 8 6, mkCandidate 4 7, mkCandidate 9 9] := by
    norm_num [scoredB, List.filter, mkCandidate]
  have hd : (([mkCandidate 8 6, mkCandidate 4 7, mkCandidate 9 9,
      mkCandidate 3 0].filter scoredB).map fun c => c.aiScore - c.humanScore) =
      [2, -3, 0] := by
    rw [hf]; norm_num [mkCandidate]
  simp only [calculateScoreDiscrepancy, hf, hd]
  norm_num [listMax, listMin, List.filter, mkCandidate, ScoreSummary.mk.injEq]

/-- C3: when no record has both scores positive, every numeric field
of the summary is zero (and the function is total, so no error is
signalled). -/
theorem scoreDiscrepancy_empty_all_zero (candidates : List Candidate)
    (h : ∀ c ∈ candidates, ¬(0 < c.aiScore ∧ 0 < c.humanScore)) :
    (calculateScoreDiscrepancy candidates).averageDiscrepancy = 0 ∧
    (calculateScoreDiscrepancy candidates).maxDiscrepancy = 0 ∧
    (calculateScoreDiscrepancy candidates).minDiscrepancy = 0 ∧
    (calculateScoreDiscrepancy candidates).totalCandidates = 0 ∧
    (calculateScoreDiscrepancy candidates).aiHigherCount = 0 ∧
    (calculateScoreDiscrepancy candidates).humanHigherCount = 0 ∧
    (calculateScoreDiscrepancy candidates).equalScoresCount = 0 := by
  have hf : candidates.filter scoredB = [] := by
    rw [List.filter_eq_nil]
    intro c hc
    simpa [scoredB] using h c hc
  simp [calculateScoreDiscrepancy, hf]

/-- Witness for scoreDiscrepancy_empty_all_zero at a concrete list
whose only record has humanScore 0. -/
theorem scoreDiscrepancy_empty_all_zero_example :
    (calculateScoreDiscrepancy [mkCandidate 3 0]).totalCandidates = 0 :=
  (scoreDiscrepancy_empty_all_zero [mkCandidate 3 0]
    (by intro c hc; rw [List.mem_singleton] at hc; subst hc;
        norm_num [mkCandidate])).2.2.2.1

/-- C5: the three sign-bucket counts always add up to
totalCandidates. -/
theorem scoreDiscrepancy_counts_partition (candidates : List Candidate) :
    (calculateScoreDiscrepancy candidates).aiHigherCount
      + (calculateScoreDiscrepancy candidates).humanHigherCount
      + (calculateScoreDiscrepancy candidates).equalScoresCount
      = (calculateScoreDiscrepancy candidates).totalCandidates := by
  unfold calculateScoreDiscrepancy
  by_cases hv : (candidates.filter scoredB).isEmpty
  · simp [hv]
  · simp only [hv, if_neg, Bool.false_eq_true, not_false_iff, if_false]
    have := sign_partition ((candidates.filter scoredB).map
      fun c => c.aiScore - c.humanScore)
    simpa using this

/-- C10: the discrepancies field is present exactly when some record
has both scores positive, and then holds the absolute values of the
signed discrepancies; otherwise the field is absent. -/
theorem scoreDiscrepancy_discrepancies_field (candidates : List Candidate) :
    ((∃ c ∈ candidates, 0 < c.aiScore ∧ 0 < c.humanScore) →
      (calculateScoreDiscrepancy candidates).discrepancies =
        some (((candidates.filter scoredB).map
          fun c => c.aiScore - c.humanScore).map fun d => |d|)) ∧
    ((∀ c ∈ candidates, ¬(0 < c.aiScore ∧ 0 < c.humanScore)) →
      (calculateScoreDiscrepancy candidates).discrepancies = none) := by
  constructor
  · rintro ⟨c, hc, hai, hhu⟩
    have hne : ¬(candidates.filter scoredB).isEmpty := by
      rw [List.isEmpty_iff]
      intro hnil
      have : c ∈ candidates.filter scoredB := by
        rw [List.mem_filter]
        exact ⟨hc, by simp [scoredB, hai, hhu]⟩
      simp [hnil] at this
    simp [calculateScoreDiscrepancy, hne]
  · intro h
    have hf : candidates.filter scoredB = [] := by
      rw [List.filter_eq_nil]
      intro c hc
      simpa [scoredB] using h c hc
    simp [calculateScoreDiscrepancy, hf]

/-- Witness for scoreDiscrepancy_discrepancies_field on a one-record
scored list. -/
theorem scoreDiscrepancy_discrepancies_field_example :
    (calculateScoreDiscrepancy [mkCandidate 8 6]).discrepancies = some [2] := by
  rw [(scoreDiscrepancy_discrepancies_field [mkCandidate 8 6]).1
    ⟨mkCandidate 8 6, by simp, by norm_num [mkCandidate]⟩]
  norm_num [scoredB, List.filter, mkCandidate]

/-- Shifting a timestamp by whole weeks does not change its day of
the week. -/
theorem jsGetDay_sub_weeks (t k : Int) :
    jsGetDay (t - k * 7 * msPerDay) = jsGetDay t := by
  unfold jsGetDay dayIndex msPerDay
  omega

/-- Shifting a timestamp by whole weeks shifts its week Monday by the
same amount. -/
theorem weekStartOf_sub_weeks (t k : Int) :
    weekStartOf (t - k * 7 * msPerDay) = weekStartOf t - k * 7 * msPerDay := by
  unfold weekStartOf
  rw [show t - k * 7 * msPerDay = t - k * 7 * msPerDay by rfl,
    jsGetDay_sub_weeks]
  generalize mondayShift (jsGetDay t) = s
  unfold startOfDay dayIndex msPerDay
  omega

/-- The computed week start falls on a Monday. -/
theorem weekStartOf_monday (t : Int) : jsGetDay (weekStartOf t) = 1 := by
  unfold weekStartOf jsGetDay startOfDay dayIndex mondayShift msPerDay
  split <;> omega

/-- The computed week start is a midnight. -/
theorem weekStartOf_midnight (t : Int) :
    startOfDay (weekStartOf t) = weekStartOf t := by
  unfold weekStartOf startOfDay dayIndex mondayShift msPerDay
  split <;> omega

/-- Closed form of a week window: it runs from the Monday midnight to
6 days later at 23:59:59.999, which is weekStart plus 7 days minus one
millisecond. -/
theorem mkWeekBucket_eq (t : Int) :
    mkWeekBucket t =
      { weekStart := weekStartOf t,
        weekEnd := weekStartOf t + 7 * msPerDay - 1 } := by
  unfold mkWeekBucket
  rw [WeekBucket.mk.injEq]
  refine ⟨rfl, ?_⟩
  unfold weekStartOf startOfDay dayIndex mondayShift msPerDay
  split <;> omega

/-- Closed form of the four week windows, in terms of the Monday of
the reference week. -/
theorem weekBuckets_eq (now : Int) :
    weekBuckets now =
      [{ weekStart := weekStartOf now - 3 * 7 * msPerDay,
         weekEnd := weekStartOf now - 3 * 7 * msPerDay + 7 * msPerDay - 1 },
       { weekStart := weekStartOf now - 2 * 7 * msPerDay,
         weekEnd := weekStartOf now - 2 * 7 * msPerDay + 7 * msPerDay - 1 },
       { weekStart := weekStartOf now - 1 * 7 * msPerDay,
         weekEnd := weekStartOf now - 1 * 7 * msPerDay + 7 * msPerDay - 1 },
       { weekStart := weekStartOf now - 0 * 7 * msPerDay,
         weekEnd := weekStartOf now - 0 * 7 * msPerDay + 7 * msPerDay - 1 }] := by
  unfold weekBuckets
  simp only [List.map_cons, List.map_nil]
  rw [mkWeekBucket_eq, mkWeekBucket_eq, mkWeekBucket_eq, mkWeekBucket_eq,
    weekStartOf_sub_weeks, weekStartOf_sub_weeks, weekStartOf_sub_weeks,
    weekStartOf_sub_weeks]

/-- C1: for every reference time and every candidate list,
calculateWeeklyTrends returns exactly 4 buckets; every window starts
on a Monday at midnight and ends 6 days later at 23:59:59.999 (one
millisecond before the next Monday); the windows are ordered oldest
first, mutually non-overlapping, and contiguous. -/
theorem weeklyTrends_bucket_structure (now : Int) (cands : List Candidate) :
    (calculateWeeklyTrends now cands).length = 4 ∧
    (weekBuckets now).length = 4 ∧
    (∀ b ∈ weekBuckets now,
        jsGetDay b.weekStart = 1 ∧ startOfDay b.weekStart = b.weekStart ∧
        b.weekEnd = b.weekStart + 7 * msPerDay - 1) ∧
    List.Pairwise (fun b1 b2 => b1.weekStart < b2.weekStart) (weekBuckets now) ∧
    List.Pairwise (fun b1 b2 => b1.weekEnd < b2.weekStart) (weekBuckets now) ∧
    ((weekBuckets now).getD 1 default).weekStart
      = ((weekBuckets now).getD 0 default).weekEnd + 1 ∧
    ((weekBuckets now).getD 2 default).weekStart
      = ((weekBuckets now).getD 1 default).weekEnd + 1 ∧
    ((weekBuckets now).getD 3 default).weekStart
      = ((weekBuckets now).getD 2 default).weekEnd + 1 := by
  refine ⟨?_, ?_, ?_, ?_, ?_, ?_, ?_, ?_⟩
  · simp [calculateWeeklyTrends, weekBuckets]
  · simp [weekBuckets]
  · intro b hb
    rw [weekBuckets_eq] at hb
    simp only [List.mem_cons, List.not_mem_nil, or_false] at hb
    rcases hb with hb | hb | hb | hb <;> subst hb <;>
      refine ⟨?_, ?_, rfl⟩ <;>
      simp only [← weekStartOf_sub_weeks] <;>
      first
        | exact weekStartOf_monday _
        | exact weekStartOf_midnight _
  · rw [weekBuckets_eq]
    simp only [List.pairwise_cons, List.mem_cons, List.not_mem_nil, or_false,
      List.Pairwise.nil, and_true]
    norm_num [msPerDay] <;> omega
  · rw [weekBuckets_eq]
    simp only [List.pairwise_cons, List.mem_cons, List.not_mem_nil, or_false,
      List.Pairwise.nil, and_true]
    norm_num [msPerDay] <;> omega
  · rw [weekBuckets_eq]; norm_num [msPerDay] <;> omega
  · rw [weekBuckets_eq]; norm_num [msPerDay] <;> omega
  · rw [weekBuckets_eq]; norm_num [msPerDay] <;> omega

/-- Witness for weeklyTrends_bucket_structure: at reference time 0
the first bucket starts on a Monday. -/
theorem weeklyTrends_bucket_structure_example :
    jsGetDay ((weekBuckets 0).getD 0 default).weekStart = 1 := by
  have h := (weeklyTrends_bucket_structure 0 []).2.2.1
  exact (h ((weekBuckets 0).getD 0 default) (by decide)).1

/-- A timestamp contained in no window is assigned to no bucket. -/
theorem findBucketIdx_eq_none {bs : List WeekBucket} {t : Int}
    (h : ∀ b ∈ bs, inBucket b t = false) : findBucketIdx bs t = none := by
  induction bs with
  | nil => rfl
  | cons b rest ih =>
    have hb := h b (List.mem_cons_self b rest)
    have hrest := ih fun x hx => h x (List.mem_cons_of_mem b hx)
    simp [findBucketIdx, hb, hrest]

/-- The weekEnd timestamp of bucket j is assigned to bucket j by the
first-match search. -/
theorem findBucketIdx_weekEnd (now : Int) (j : Nat) (hj : j < 4) :
    findBucketIdx (weekBuckets now)
      (((weekBuckets now).getD j default).weekEnd) = some j := by
  rw [weekBuckets_eq]
  interval_cases j <;>
    · simp only [List.getD_cons_zero, List.getD_cons_succ, findBucketIdx,
        inBucket, Bool.and_eq_true, decide_eq_true_eq, msPerDay]
      split_ifs <;> simp_all <;> omega

/-- C4: a candidate whose parsed date equals the weekEnd timestamp of
bucket j (the final millisecond of that week) is placed in bucket j
and in no other bucket, in particular not in the following week. -/
theorem weekEnd_boundary_assignment (now : Int) (cands : List Candidate)
    (c : Candidate) (j : Nat) (hj : j < 4) (hc : c ∈ cands)
    (hd : c.dateAdded =
      DateField.parsed (((weekBuckets now).getD j default).weekEnd)) :
    c ∈ bucketAll (weekBuckets now) cands j ∧
    ∀ k : Nat, k ≠ j → c ∉ bucketAll (weekBuckets now) cands k := by
  have hfind := findBucketIdx_weekEnd now j hj
  have hp : parsedDate c =
      some (((weekBuckets now).getD j default).weekEnd) := by
    simp [parsedDate, hd]
  constructor
  · unfold bucketAll
    rw [List.mem_filter, List.mem_filter]
    refine ⟨⟨hc, ?_⟩, ?_⟩
    · simp [hasDate, hd]
    · simp only [assignedTo, hp, hfind, beq_self_eq_true]
  · intro k hk
    unfold bucketAll
    rw [List.mem_filter]
    rintro ⟨-, hassign⟩
    simp only [assignedTo, hp, hfind, beq_iff_eq, Option.some.injEq] at hassign
    exact hk hassign.symm

/-- Witness for weekEnd_boundary_assignment: at reference time 0 the
oldest bucket ends at -1468800001, and a candidate dated there lands
in bucket 0. -/
theorem weekEnd_boundary_assignment_example :
    { mkCandidate 1 1 with dateAdded := DateField.parsed (-1468800001) }
      ∈ bucketAll (weekBuckets 0)
        [{ mkCandidate 1 1 with dateAdded := DateField.parsed (-1468800001) }]
        0 :=
  (weekEnd_boundary_assignment 0 _ _ 0 (by norm_num) (by simp) (by decide)).1

/-- C6: a record whose date is missing, unparseable, or outside all
four windows appears in no bucket (and the bucketing function is
total, so it never raises); moreover calculateScoreDiscrepancy is
insensitive to the dateAdded field, so such records still participate
in that aggregate. -/
theorem weeklyTrends_drops_dateless (now : Int) (cands : List Candidate)
    (c : Candidate)
    (h : c.dateAdded = DateField.missing ∨
      c.dateAdded = DateField.unparseable ∨
      ∃ t, c.dateAdded = DateField.parsed t ∧
        ∀ b ∈ weekBuckets now, ¬(b.weekStart ≤ t ∧ t ≤ b.weekEnd)) :
    (∀ j : Nat, c ∉ bucketAll (weekBuckets now) cands j) ∧
    ∀ g : Candidate → DateField,
      calculateScoreDiscrepancy (cands.map fun x => { x with dateAdded := g x })
        = calculateScoreDiscrepancy cands := by
  constructor
  · intro j hmem
    unfold bucketAll at hmem
    rw [List.mem_filter, List.mem_filter] at hmem
    obtain ⟨⟨-, hdate⟩, hassign⟩ := hmem
    rcases h with h | h | ⟨t, ht, hout⟩
    · simp [hasDate, h] at hdate
    · simp [assignedTo, parsedDate, h] at hassign
    · have hnone : findBucketIdx (weekBuckets now) t = none :=
        findBucketIdx_eq_none fun b hb => by
          cases hcb : inBucket b t with
          | false => rfl
          | true =>
            simp only [inBucket, Bool.and_eq_true, decide_eq_true_eq] at hcb
            exact absurd hcb (hout b hb)
      simp [assignedTo, parsedDate, ht, hnone] at hassign
  · intro g
    have hfilt : ∀ l : List Candidate,
        ((l.map fun x => { x with dateAdded := g x }).filter scoredB)
          = (l.filter scoredB).map fun x => { x with dateAdded := g x } := by
      intro l
      induction l with
      | nil => simp
      | cons a l ih =>
        have ha : scoredB { a with dateAdded := g a } = scoredB a := rfl
        by_cases hs : scoredB a
        · simp [List.filter_cons, ha, hs, ih]
        · simp [List.filter_cons, ha, hs, ih]
    unfold calculateScoreDiscrepancy
    rw [hfilt cands]
    cases hv : cands.filter scoredB with
    | nil => simp
    | cons a l =>
      have hcomp : ((fun c : Candidate => c.aiScore - c.humanScore) ∘
          fun x => { x with dateAdded := g x })
            = fun c : Candidate => c.aiScore - c.humanScore := rfl
      simp [List.map_map, hcomp, ScoreSummary.mk.injEq]

/-- Witness for weeklyTrends_drops_dateless: a candidate with no date
is absent from the oldest bucket at reference time 0. -/
theorem weeklyTrends_drops_dateless_example :
    mkCandidate 1 1 ∉ bucketAll (weekBuckets 0) [mkCandidate 1 1] 0 :=
  (weeklyTrends_drops_dateless 0 [mkCandidate 1 1] (mkCandidate 1 1)
    (Or.inl rfl)).1 0

/-- C9: in every bucket of calculateWeeklyTrends the three sign
counts partition the scored sub-count, and the scored sub-count never
exceeds the bucket volume count. -/
theorem weeklyTrends_count_invariant (now : Int) (cands : List Candidate)
    (w : WeekMetrics) (hw : w ∈ calculateWeeklyTrends now cands) :
    w.aiHigherCount + w.humanHigherCount + w.equalCount = w.scoredCandidates ∧
    w.scoredCandidates ≤ w.totalCandidates := by
  unfold calculateWeeklyTrends at hw
  rw [List.mem_map] at hw
  obtain ⟨j, hj, hwe⟩ := hw
  subst hwe
  constructor
  · have hpart := sign_partition
      (((bucketAll (weekBuckets now) cands j).filter scoredB).map
        fun c => c.aiScore - c.humanScore)
    simp only [weekMetricsOf, List.length_map] at hpart ⊢
    exact hpart
  · simp only [weekMetricsOf]
    exact List.length_filter_le _ _

/-- Witness for weeklyTrends_count_invariant at reference time 0 on
the empty candidate list, first bucket. -/
theorem weeklyTrends_count_invariant_example :
    ((calculateWeeklyTrends 0 []).getD 0 default).aiHigherCount
        + ((calculateWeeklyTrends 0 []).getD 0 default).humanHigherCount
        + ((calculateWeeklyTrends 0 []).getD 0 default).equalCount
      = ((calculateWeeklyTrends 0 []).getD 0 default).scoredCandidates := by
  have hlen : 0 < (calculateWeeklyTrends 0 []).length := by
    simp [calculateWeeklyTrends, weekBuckets]
  exact (weeklyTrends_count_invariant 0 [] _
    (by rw [List.getD_eq_getElem _ _ hlen]; exact List.getElem_mem hlen)).1

/-- Keys already in the accumulator survive the rest of the fold. -/
theorem mem_foldl_insertKey (l : List Candidate) :
    ∀ ks k, k ∈ ks →
      k ∈ l.foldl (fun ks c => insertKey ks (roleKey c)) ks := by
  induction l with
  | nil => intro ks k hk; simpa using hk
  | cons a l ih =>
    intro ks k hk
    simp only [List.foldl_cons]
    apply ih
    unfold insertKey
    split
    · exact hk
    · exact List.mem_append_left _ hk

/-- The key of every record ends up among the accumulator keys. -/
theorem roleKey_mem_foldl (l : List Candidate) :
    ∀ (ks : List String) (c : Candidate), c ∈ l →
      roleKey c ∈ l.foldl (fun ks c => insertKey ks (roleKey c)) ks := by
  induction l with
  | nil => intro ks c hc; simp at hc
  | cons a l ih =>
    intro ks c hc
    rcases List.mem_cons.mp hc with h | h
    · subst h
      simp only [List.foldl_cons]
      apply mem_foldl_insertKey
      unfold insertKey
      split
      · assumption
      · simp
    · simp only [List.foldl_cons]
      exact ih _ c h

/-- C7 counterexample: a record with empty jobRole and empty role is
not excluded from the role map; it is grouped under the synthetic key
"No Role". -/
theorem no_role_key_in_map :
    roleKey (mkCandidate 5 5) = "No Role" ∧
    roleKeysOf [mkCandidate 5 5] = ["No Role"] ∧
    roleGroup [mkCandidate 5 5] "No Role" = [mkCandidate 5 5] := by
  refine ⟨?_, ?_, ?_⟩ <;>
    simp [roleKey, roleKeysOf, insertKey, roleGroup, mkCandidate, List.filter]

/-- C7 (amended): in the role breakdowns a record whose jobRole and
role are both empty is grouped under the synthetic key "No Role" and
kept in the map, not excluded. -/
theorem empty_role_grouped_under_no_role (cands : List Candidate)
    (c : Candidate) (hc : c ∈ cands) (hj : c.jobRole = "")
    (hr : c.role = "") :
    roleKey c = "No Role" ∧ "No Role" ∈ roleKeysOf cands ∧
    c ∈ roleGroup cands "No Role" := by
  have hk : roleKey c = "No Role" := by simp [roleKey, hj, hr]
  refine ⟨hk, ?_, ?_⟩
  · have h := roleKey_mem_foldl cands [] c hc
    rw [hk] at h
    exact h
  · unfold roleGroup
    rw [List.mem_filter]
    exact ⟨hc, by simp [hk]⟩

/-- Witness for empty_role_grouped_under_no_role on a singleton
list. -/
theorem empty_role_grouped_under_no_role_example :
    mkCandidate 5 5 ∈ roleGroup [mkCandidate 5 5] "No Role" :=
  (empty_role_grouped_under_no_role [mkCandidate 5 5] (mkCandidate 5 5)
    (by simp) rfl rfl).2.2

/-- AI-score components of one RolePerformanceTab step: accumulated
only when the record passes both early returns and has a positive AI
score. -/
theorem rolePerfStep_aiFields (acc : RoleAcc) (c : Candidate) :
    ((rolePerfStep acc c).aiScoreSum =
      if perfContributes c ∧ 0 < c.aiScore then acc.aiScoreSum + c.aiScore
      else acc.aiScoreSum) ∧
    ((rolePerfStep acc c).aiProcessedCount =
      if perfContributes c ∧ 0 < c.aiScore then acc.aiProcessedCount + 1
      else acc.aiProcessedCount) := by
  unfold rolePerfStep perfContributes
  constructor <;> split_ifs <;> simp_all

/-- Human-score components of one RolePerformanceTab step. -/
theorem rolePerfStep_humanFields (acc : RoleAcc) (c : Candidate) :
    ((rolePerfStep acc c).humanScoreSum =
      if perfContributes c ∧ 0 < c.humanScore then
        acc.humanScoreSum + c.humanScore
      else acc.humanScoreSum) ∧
    ((rolePerfStep acc c).humanProcessedCount =
      if perfContributes c ∧ 0 < c.humanScore then
        acc.humanProcessedCount + 1
      else acc.humanProcessedCount) := by
  unfold rolePerfStep perfContributes
  constructor <;> split_ifs <;> simp_all

/-- AI-score components of one CandidateQualityTab step. -/
theorem roleQualityStep_aiFields (acc : QualityAcc) (c : Candidate) :
    ((roleQualityStep acc c).aiScoreSum =
      if 0 < c.aiScore then acc.aiScoreSum + c.aiScore
      else acc.aiScoreSum) ∧
    ((roleQualityStep acc c).aiScoreCount =
      if 0 < c.aiScore then acc.aiScoreCount + 1 else acc.aiScoreCount) := by
  unfold roleQualityStep
  constructor <;> split_ifs <;> simp_all

/-- Human-score components of one CandidateQualityTab step. -/
theorem roleQualityStep_humanFields (acc : QualityAcc) (c : Candidate) :
    ((roleQualityStep acc c).humanScoreSum =
      if 0 < c.humanScore then acc.humanScoreSum + c.humanScore
      else acc.humanScoreSum) ∧
    ((roleQualityStep acc c).humanScoreCount =
      if 0 < c.humanScore then acc.humanScoreCount + 1
      else acc.humanScoreCount) := by
  unfold roleQualityStep
  constructor <;> split_ifs <;> simp_all

/-- AI-score components of the RolePerformanceTab fold: the sum and
count range over the records with non-empty source and status and a
positive AI score. -/
theorem rolePerf_foldl_aiFields (g : List Candidate) : ∀ acc : RoleAcc,
    ((g.foldl rolePerfStep acc).aiScoreSum = acc.aiScoreSum +
      (((g.filter perfContributes).filter fun c => 0 < c.aiScore).map
        fun c => c.aiScore).sum) ∧
    ((g.foldl rolePerfStep acc).aiProcessedCount = acc.aiProcessedCount +
      ((g.filter perfContributes).filter fun c => 0 < c.aiScore).length) := by
  induction g with
  | nil => intro acc; simp
  | cons a g ih =>
    intro acc
    obtain ⟨ih1, ih2⟩ := ih (rolePerfStep acc a)
    obtain ⟨h1, h2⟩ := rolePerfStep_aiFields acc a
    simp only [List.foldl_cons]
    by_cases hp : perfContributes a = true
    · by_cases hai : 0 < a.aiScore
      · refine ⟨?_, ?_⟩ <;>
          simp [List.filter_cons, hp, hai, ih1, ih2, h1, h2] <;>
          first | ring | omega
      · refine ⟨?_, ?_⟩ <;>
          simp [List.filter_cons, hp, hai, ih1, ih2, h1, h2] <;>
          first | ring | omega
    · refine ⟨?_, ?_⟩ <;>
        simp [List.filter_cons, hp, ih1, ih2, h1, h2] <;>
        first | ring | omega

/-- Human-score components of the RolePerformanceTab fold. -/
theorem rolePerf_foldl_humanFields (g : List Candidate) : ∀ acc : RoleAcc,
    ((g.foldl rolePerfStep acc).humanScoreSum = acc.humanScoreSum +
      (((g.filter perfContributes).filter fun c => 0 < c.humanScore).map
        fun c => c.humanScore).sum) ∧
    ((g.foldl rolePerfStep acc).humanProcessedCount =
      acc.humanProcessedCount +
        ((g.filter perfContributes).filter fun c => 0 < c.humanScore).length) := by
  induction g with
  | nil => intro acc; simp
  | cons a g ih =>
    intro acc
    obtain ⟨ih1, ih2⟩ := ih (rolePerfStep acc a)
    obtain ⟨h1, h2⟩ := rolePerfStep_humanFields acc a
    simp only [List.foldl_cons]
    by_cases hp : perfContributes a = true
    · by_cases hhu : 0 < a.humanScore
      · refine ⟨?_, ?_⟩ <;>
          simp [List.filter_cons, hp, hhu, ih1, ih2, h1, h2] <;>
          first | ring | omega
      · refine ⟨?_, ?_⟩ <;>
          simp [List.filter_cons, hp, hhu, ih1, ih2, h1, h2] <;>
          first | ring | omega
    · refine ⟨?_, ?_⟩ <;>
        simp [List.filter_cons, hp, ih1, ih2, h1, h2] <;>
        first | ring | omega

/-- AI-score components of the CandidateQualityTab fold: the sum and
count range over the records with a positive AI score. -/
theorem roleQuality_foldl_aiFields (g : List Candidate) :
    ∀ acc : QualityAcc,
    ((g.foldl roleQualityStep acc).aiScoreSum = acc.aiScoreSum +
      ((g.filter fun c => 0 < c.aiScore).map fun c => c.aiScore).sum) ∧
    ((g.foldl roleQualityStep acc).aiScoreCount = acc.aiScoreCount +
      (g.filter fun c => 0 < c.aiScore).length) := by
  induction g with
  | nil => intro acc; simp
  | cons a g ih =>
    intro acc
    obtain ⟨ih1, ih2⟩ := ih (roleQualityStep acc a)
    obtain ⟨h1, h2⟩ := roleQualityStep_aiFields acc a
    simp only [List.foldl_cons]
    by_cases hai : 0 < a.aiScore
    · refine ⟨?_, ?_⟩ <;>
        simp [List.filter_cons, hai, ih1, ih2, h1, h2] <;>
        first | ring | omega
    · refine ⟨?_, ?_⟩ <;>
        simp [List.filter_cons, hai, ih1, ih2, h1, h2] <;>
        first | ring | omega

/-- Human-score components of the CandidateQualityTab fold. -/
theorem roleQuality_foldl_humanFields (g : List Candidate) :
    ∀ acc : QualityAcc,
    ((g.foldl roleQualityStep acc).humanScoreSum = acc.humanScoreSum +
      ((g.filter fun c => 0 < c.humanScore).map fun c => c.humanScore).sum) ∧
    ((g.foldl roleQualityStep acc).humanScoreCount = acc.humanScoreCount +
      (g.filter fun c => 0 < c.humanScore).length) := by
  induction g with
  | nil => intro acc; simp
  | cons a g ih =>
    intro acc
    obtain ⟨ih1, ih2⟩ := ih (roleQualityStep acc a)
    obtain ⟨h1, h2⟩ := roleQualityStep_humanFields acc a
    simp only [List.foldl_cons]
    by_cases hhu : 0 < a.humanScore
    · refine ⟨?_, ?_⟩ <;>
        simp [List.filter_cons, hhu, ih1, ih2, h1, h2] <;>
        first | ring | omega
    · refine ⟨?_, ?_⟩ <;>
        simp [List.filter_cons, hhu, ih1, ih2, h1, h2] <;>
        first | ring | omega

/-- C8 counterexample: in the RolePerformanceTab breakdown, the group
"R" built from a scored record with source and status (AI score 8)
and a scored record without source (AI score 4) reports avgAiScore 8,
while the mean over the records of the group with aiScore > 0 is 6 —
the sourceless record is dropped from numerator and denominator, so
the claimed formula fails. -/
theorem rolePerf_avg_counterexample :
    roleGroup [perfCexScored, perfCexSourceless] "R"
        = [perfCexScored, perfCexSourceless] ∧
    rolePerfAvgAiScore (roleGroup [perfCexScored, perfCexSourceless] "R") = 8 ∧
    specAvgAiScore (roleGroup [perfCexScored, perfCexSourceless] "R") = 6 ∧
    (8 : ℚ) ≠ 6 := by
  have hg : roleGroup [perfCexScored, perfCexSourceless] "R"
      = [perfCexScored, perfCexSourceless] := by
    simp [roleGroup, roleKey, perfCexScored, perfCexSourceless, mkCandidate,
      List.filter]
  have hX : ¬("X" : String) = "" := by decide
  have hS : ¬("S" : String) = "" := by decide
  refine ⟨hg, ?_, ?_, by norm_num⟩
  · rw [hg]
    norm_num [rolePerfAvgAiScore, rolePerfAcc, rolePerfInit, rolePerfStep,
      perfCexScored, perfCexSourceless, mkCandidate, List.foldl, hX, hS]
  · rw [hg]
    norm_num [specAvgAiScore, perfCexScored, perfCexSourceless, mkCandidate,
      List.filter]

/-- C8 (amended): for every group, avgAiScore and avgHumanScore in
the CandidateQualityTab breakdown equal the mean over the records of
the group with the respective score positive (0 when there are none),
while in the RolePerformanceTab breakdown they equal the same mean
restricted to the records with non-empty source and non-empty status;
in neither breakdown is the divisor the total record count of the
group. -/
theorem dimension_avg_scores (g : List Candidate) :
    roleQualityAvgAiScore g = specAvgAiScore g ∧
    roleQualityAvgHumanScore g = specAvgHumanScore g ∧
    rolePerfAvgAiScore g = specAvgAiScore (g.filter perfContributes) ∧
    rolePerfAvgHumanScore g = specAvgHumanScore (g.filter perfContributes) := by
  obtain ⟨hqa1, hqa2⟩ := roleQuality_foldl_aiFields g roleQualityInit
  obtain ⟨hqh1, hqh2⟩ := roleQuality_foldl_humanFields g roleQualityInit
  obtain ⟨hpa1, hpa2⟩ := rolePerf_foldl_aiFields g rolePerfInit
  obtain ⟨hph1, hph2⟩ := rolePerf_foldl_humanFields g rolePerfInit
  simp only [roleQualityInit, rolePerfInit, zero_add] at hqa1 hqa2 hqh1 hqh2 hpa1 hpa2 hph1 hph2
  refine ⟨?_, ?_, ?_, ?_⟩
  · simp [roleQualityAvgAiScore, roleQualityAcc, roleQualityInit,
      specAvgAiScore, hqa1, hqa2, List.length_map]
  · simp [roleQualityAvgHumanScore, roleQualityAcc, roleQualityInit,
      specAvgHumanScore, hqh1, hqh2, List.length_map]
  · simp [rolePerfAvgAiScore, rolePerfAcc, rolePerfInit,
      specAvgAiScore, hpa1, hpa2, List.length_map]
  · simp [rolePerfAvgHumanScore, rolePerfAcc, rolePerfInit,
      specAvgHumanScore, hph1, hph2, List.length_map]
